import Mathlib

/-!
Verification of the JSON_API_TRADER trade lifecycle engine.

The repository snapshot contains the frontend (TypeScript/React components and
type declarations) and the project documentation (`README.md`); the Python
backend modules named in `README.md` (`strategy.py`, `models.py`,
`trade_loader.py`, ...) are not part of the snapshot.  Definitions below are
therefore of two kinds:

* direct shallow embeddings of the frontend code (`frontend/components/*.tsx`
  and the shared type declarations), and
* models of the missing backend, built from the specification and from the
  strategy documentation in `src/README.md`; each such definition carries a
  doc comment starting with `Modelled from the spec:`.

Prices, sizes and quantities are embedded as `ℚ` (the code works with finite
JS/Python decimal numbers; no claim depends on floating-point rounding).
-/

namespace JsonApiTrader

/-- Trade direction, embedded from the frontend enum `TradeDirection`
(`frontend/components/TradingViewChart.tsx`, types section). -/
inductive Direction where
  | LONG
  | SHORT
  deriving DecidableEq, Repr

/-- The string values of the frontend enum `TradeStatus`
(`frontend/components/TradingViewChart.tsx` lines 125-130).  The enum has
exactly four members: PENDING, ACTIVE, OPEN, CLOSED. -/
def tradeStatusValues : List String :=
  ["PENDING", "ACTIVE", "OPEN", "CLOSED"]

/-- Trade status, embedded from the same frontend enum. -/
inductive TradeStatus where
  | PENDING
  | ACTIVE
  | OPEN
  | CLOSED
  deriving DecidableEq, Repr

/-- String value of each `TradeStatus` member, as declared in the enum. -/
def TradeStatus.value : TradeStatus → String
  | .PENDING => "PENDING"
  | .ACTIVE => "ACTIVE"
  | .OPEN => "OPEN"
  | .CLOSED => "CLOSED"

/-- Trade event types, embedded from the frontend enum `TradeEventType`
(`frontend/components/TradingViewChart.tsx` lines 271-283). -/
inductive EventType where
  | TRADE_CREATED
  | TRADE_STARTED
  | ORDER_PLACED
  | ORDER_FILLED
  | ORDER_CANCELLED
  | SL_MOVED
  | TP_HIT
  | POSITION_OPENED
  | POSITION_CLOSED
  | TRADE_CLOSED
  | ERROR
  deriving DecidableEq, Repr

/-- Modelled from the spec: the backend `strategy.py` (TP cascade logic) is
not in the snapshot.  `cascadeStopLoss(direction, justHitLevel,
priorLevelPrice, offsetPercent)` computes the stop-loss installed when a
take-profit level fires, from the prior level's price and the configured
offset (default 0.1%).  The direction of the shift follows the strategy
documentation in `src/README.md` lines 21-35: the new stop-loss is placed
just *above* the anchor price — "move SL just above entry price", and in the
SHORT example "move SL to ~0.0222 (above entry)", "~0.0219 (above TP1)",
"~0.0218 (above TP2)" — for both LONG and SHORT trades. -/
def cascadeStopLoss (direction : Direction) (justHitLevel : ℕ)
    (priorLevelPrice offsetPercent : ℚ) : ℚ :=
  match direction with
  | .LONG => priorLevelPrice * (1 + offsetPercent / 100)
  | .SHORT => priorLevelPrice * (1 + offsetPercent / 100)

/-- Modelled from the spec: the anchor price used by the cascade when
take-profit level `k` (1-based) fires — the entry price for `k = 1`,
otherwise the price of take-profit level `k - 1`. -/
def anchorPrice (entryPrice : ℚ) (tpPrices : List ℚ) (k : ℕ) : ℚ :=
  if k ≤ 1 then entryPrice else tpPrices.getD (k - 2) entryPrice

/-- One entry or rebuy level of a trade plan (`orderEntries` in the JSON
format of `src/README.md`): label, limit price, size in USD. -/
structure OrderLevelSpec where
  label : String
  price : ℚ
  sizeUSD : ℚ
  deriving DecidableEq, Repr

/-- One take-profit level of a trade plan (`takeProfits` in the JSON format
of `src/README.md`): level label, price, percent of the position to close. -/
structure TPLevel where
  level : String
  price : ℚ
  sizePercent : ℚ
  deriving DecidableEq, Repr

/-- A declarative trade plan (`tradeSetup` plus its order levels, per the
JSON format documented in `src/README.md` lines 109-152). -/
structure TradePlan where
  direction : Direction
  marginUSD : ℚ
  leverage : ℚ
  entryPrice : ℚ
  stopLoss : ℚ
  entries : List OrderLevelSpec
  takeProfits : List TPLevel
  deriving DecidableEq, Repr

/-- Modelled from the spec: the error kinds of the plan validator (backend
`trade_loader.py`/`models.py` validation, not in the snapshot), one per
validation rule of `src/README.md` lines 154-159. -/
inductive ValidationError where
  | badOrdering
  | badMarginSum
  | badTakeProfitSum
  | nonPositive
  deriving DecidableEq, Repr

/-- Modelled from the spec: direction-consistent price ordering.  LONG:
stopLoss < entryPrice < every take-profit price; SHORT: stopLoss >
entryPrice > every take-profit price. -/
def orderingOk (p : TradePlan) : Bool :=
  match p.direction with
  | .LONG =>
      decide (p.stopLoss < p.entryPrice) &&
        p.takeProfits.all fun tp => decide (p.entryPrice < tp.price)
  | .SHORT =>
      decide (p.entryPrice < p.stopLoss) &&
        p.takeProfits.all fun tp => decide (tp.price < p.entryPrice)

/-- Sum of the USD sizes of all entry/rebuy levels. -/
def entriesSum (p : TradePlan) : ℚ :=
  (p.entries.map OrderLevelSpec.sizeUSD).sum

/-- Modelled from the spec: the entry sizes must sum to `marginUSD` within
relative epsilon `1e-6`. -/
def marginSumOk (p : TradePlan) : Bool :=
  decide (|entriesSum p - p.marginUSD| ≤ p.marginUSD * (1 / 1000000))

/-- Modelled from the spec: the take-profit percentages must sum to at
most 100. -/
def takeProfitSumOk (p : TradePlan) : Bool :=
  decide ((p.takeProfits.map TPLevel.sizePercent).sum ≤ 100)

/-- Modelled from the spec: every price and size of the plan is a positive
(finite) decimal; finiteness is automatic in `ℚ`. -/
def positiveOk (p : TradePlan) : Bool :=
  decide (0 < p.marginUSD) && decide (0 < p.leverage) &&
    decide (0 < p.entryPrice) && decide (0 < p.stopLoss) &&
    (p.entries.all fun e => decide (0 < e.price) && decide (0 < e.sizeUSD)) &&
    (p.takeProfits.all fun tp =>
      decide (0 < tp.price) && decide (0 < tp.sizePercent))

/-- Modelled from the spec: `validate(plan) -> Ok | Error{kind}` checks the
invariants in order and returns the first violated one; it never partially
validates.  The backend validator itself is not in the snapshot; the rules
follow `src/README.md` lines 154-159 and the specification of
the Trade Plan Validator. -/
def validate (p : TradePlan) : Except ValidationError Unit :=
  if orderingOk p then
    if marginSumOk p then
      if takeProfitSumOk p then
        if positiveOk p then .ok ()
        else .error .nonPositive
      else .error .badTakeProfitSum
    else .error .badMarginSum
  else .error .badOrdering

/-- Modelled from the spec: the controller's belief about one entry/rebuy
order — its base-asset quantity and whether a fill has been observed
(backend `order_manager.py`, not in the snapshot). -/
structure EntrySt where
  qty : ℚ
  filled : Bool
  deriving DecidableEq, Repr

/-- Modelled from the spec: the controller's belief about one take-profit
order — the percent of position it closes, its price, whether it has been
observed filled, and the quantity it actually closed when it filled
(zero while unfilled). -/
structure TpSt where
  pct : ℚ
  price : ℚ
  filled : Bool
  closedQty : ℚ
  deriving DecidableEq, Repr

/-- Modelled from the spec: the mutable `PositionState` plus order ledger of
one trade, as mutated by the Lifecycle Controller. -/
structure EngineState where
  entries : List EntrySt
  tps : List TpSt
  accumulatedSize : ℚ
  slPrice : Option ℚ
  slQty : ℚ
  deriving DecidableEq, Repr

/-- Modelled from the spec: the immutable plan data the controller consults
during a polling tick. -/
structure EnginePlan where
  direction : Direction
  entryPrice : ℚ
  stopLoss : ℚ
  offsetPercent : ℚ
  deriving DecidableEq, Repr

/-- Modelled from the spec: one poll of the Exchange Gateway — the observed
filled flags of the entry/rebuy orders and of the take-profit orders, in
ledger order. -/
structure Poll where
  entryFills : List Bool
  tpFills : List Bool
  deriving DecidableEq, Repr

/-- Result of reconciling the entry/rebuy orders in one tick. -/
structure EntriesResult where
  entries : List EntrySt
  acc : ℚ
  count : ℕ
  deriving DecidableEq, Repr

/-- Result of reconciling the take-profit orders in one tick. -/
structure TpsResult where
  tps : List TpSt
  acc : ℚ
  sl : Option ℚ
  count : ℕ
  deriving DecidableEq, Repr

/-- Modelled from the spec: polling-cycle step 1 — for each newly observed
entry/rebuy fill, add its quantity to the accumulated position size and mark
it filled; also counts the newly filled orders. -/
def entriesStep : List EntrySt → List Bool → ℚ → EntriesResult
  | [], _, acc => ⟨[], acc, 0⟩
  | es, [], acc => ⟨es, acc, 0⟩
  | e :: es, o :: os, acc =>
      let newFill := o && !e.filled
      let acc1 := if newFill then acc + e.qty else acc
      let r := entriesStep es os acc1
      ⟨{ e with filled := e.filled || o } :: r.entries, r.acc,
        (if newFill then 1 else 0) + r.count⟩

/-- Modelled from the spec: polling-cycle step 2 — for each newly observed
take-profit fill (level `k`, 1-based), close `pct`% of the current
accumulated size, record the closed quantity, and install the cascade
stop-loss anchored at the prior level's price (`prevPrice`: the entry price
for level 1, afterwards the previous take-profit's price). -/
def tpsStep (direction : Direction) (offsetPercent : ℚ) :
    ℕ → ℚ → List TpSt → List Bool → ℚ → Option ℚ → TpsResult
  | _, _, [], _, acc, sl => ⟨[], acc, sl, 0⟩
  | _, _, ts, [], acc, sl => ⟨ts, acc, sl, 0⟩
  | k, prevPrice, t :: ts, o :: os, acc, sl =>
      let newFill := o && !t.filled
      let closed := if newFill then t.pct / 100 * acc else t.closedQty
      let acc1 := if newFill then acc - t.pct / 100 * acc else acc
      let sl1 := if newFill
        then some (cascadeStopLoss direction k prevPrice offsetPercent)
        else sl
      let r := tpsStep direction offsetPercent (k + 1) t.price ts os acc1 sl1
      ⟨{ t with filled := t.filled || o, closedQty := closed } :: r.tps,
        r.acc, r.sl, (if newFill then 1 else 0) + r.count⟩

/-- Modelled from the spec: one polling tick of the Lifecycle Controller.
Newly filled entries/rebuys are reconciled first (the stop-loss price is the
one already in force, initially the plan's declared `stopLoss`, and the stop
order is re-issued sized to the new accumulated size); newly filled
take-profits then apply the cascade.  Whenever any fill was processed the
resting stop order is replaced covering the whole remaining position.
Events: one ORDER_FILLED per entry fill, one TP_HIT per take-profit fill,
and SL_MOVED when the stop was re-issued. -/
def tick (plan : EnginePlan) (s : EngineState) (poll : Poll) :
    EngineState × List EventType :=
  let er := entriesStep s.entries poll.entryFills s.accumulatedSize
  let sl1 := if 0 < er.count then some (s.slPrice.getD plan.stopLoss)
             else s.slPrice
  let tr := tpsStep plan.direction plan.offsetPercent 1 plan.entryPrice
              s.tps poll.tpFills er.acc sl1
  let anyFill := 0 < er.count + tr.count
  ({ entries := er.entries, tps := tr.tps, accumulatedSize := tr.acc,
     slPrice := tr.sl,
     slQty := if anyFill then tr.acc else s.slQty },
   List.replicate er.count .ORDER_FILLED ++
     List.replicate tr.count .TP_HIT ++
     if anyFill then [.SL_MOVED] else [])

/-- Modelled from the spec: the state of a freshly activated trade — no
fill observed yet, zero position, no stop-loss order resting. -/
def initState (entryQtys : List ℚ) (tpLevels : List (ℚ × ℚ)) : EngineState :=
  { entries := entryQtys.map fun q => { qty := q, filled := false },
    tps := tpLevels.map fun pp =>
      { pct := pp.1, price := pp.2, filled := false, closedQty := 0 },
    accumulatedSize := 0, slPrice := none, slQty := 0 }

/-- Reachable states of one trade: the freshly activated state, closed under
polling ticks. -/
inductive Reachable (plan : EnginePlan) : EngineState → Prop where
  | init (entryQtys : List ℚ) (tpLevels : List (ℚ × ℚ)) :
      Reachable plan (initState entryQtys tpLevels)
  | step {s : EngineState} (poll : Poll) :
      Reachable plan s → Reachable plan (tick plan s poll).1

/-- Sum of the quantities of the entry/rebuy orders observed filled. -/
def sumFilledQty (es : List EntrySt) : ℚ :=
  es.foldr (fun e t => if e.filled then e.qty + t else t) 0

/-- Sum of the quantities closed by the take-profit orders observed
filled. -/
def sumClosedQty (ts : List TpSt) : ℚ :=
  ts.foldr (fun t a => if t.filled then t.closedQty + a else a) 0

/-- Number of orders a poll reports filled that the local flags do not yet
record as filled. -/
def newFillCount : List Bool → List Bool → ℕ
  | [], _ => 0
  | _, [] => 0
  | f :: fs, o :: os => (if o && !f then 1 else 0) + newFillCount fs os

/-- Modelled from the spec: per-trade outage bookkeeping of the monitoring
loop — the trade's status and the count of consecutive failed Gateway
polls. -/
structure OutageState where
  status : TradeStatus
  failCount : ℕ
  deriving DecidableEq, Repr

/-- Modelled from the spec: one monitoring tick under the configured outage
threshold `N`.  A successful Gateway round-trip resets the
consecutive-failure counter; a failed one increments it, leaves the trade
status untouched, and emits a single ERROR event exactly when the count
reaches `N` (`TransientGatewayError` handling: retried with no state
change, one informational ERROR event once the outage persists past `N`
consecutive ticks). -/
def outageTick (N : ℕ) (s : OutageState) (ok : Bool) :
    OutageState × List EventType :=
  if ok then ({ s with failCount := 0 }, [])
  else ({ s with failCount := s.failCount + 1 },
        if s.failCount + 1 = N then [.ERROR] else [])

/-- Modelled from the spec: the monitoring loop over a sequence of Gateway
tick outcomes, concatenating the emitted events. -/
def outageRun (N : ℕ) (s : OutageState) : List Bool → OutageState × List EventType
  | [] => (s, [])
  | ok :: rest =>
      let r := outageTick N s ok
      let r' := outageRun N r.1 rest
      (r'.1, r.2 ++ r'.2)

/-- Modelled from the spec: the lifecycle transitions between the trade
statuses that exist in the code: PENDING → ACTIVE on the start command,
ACTIVE → OPEN on the first observed fill, OPEN → CLOSED when the position
returns to zero or is closed.  The code's `TradeStatus` enum has no further
member, so there are no other transitions. -/
inductive statusStep : TradeStatus → TradeStatus → Prop where
  | start : statusStep .PENDING .ACTIVE
  | firstFill : statusStep .ACTIVE .OPEN
  | close : statusStep .OPEN .CLOSED

/-- Position of each status in the lifecycle chain. -/
def statusRank : TradeStatus → ℕ
  | .PENDING => 0
  | .ACTIVE => 1
  | .OPEN => 2
  | .CLOSED => 3

/-- An entry/rebuy order as carried by the frontend `Trade` type
(`OrderEntry` in the shared type declarations); only the fields consulted
by `getOrderLevels` are embedded. -/
structure OrderEntry where
  label : String
  price : ℚ
  filled : Bool
  deriving DecidableEq, Repr

/-- A take-profit order as carried by the frontend `Trade` type
(`TakeProfit` in the shared type declarations); only the fields consulted
by `getOrderLevels` are embedded. -/
structure TakeProfit where
  level : String
  price : ℚ
  filled : Bool
  deriving DecidableEq, Repr

/-- The slice of the frontend `Trade` object read by `getOrderLevels`. -/
structure Trade where
  entries : List OrderEntry
  take_profits : List TakeProfit
  stop_loss : ℚ
  deriving DecidableEq, Repr

/-- The `type` discriminator of the chart's `OrderLevel` interface
(`frontend/components/LightweightChart.tsx` lines 18-23). -/
inductive LevelType where
  | entry
  | tp
  | sl
  | rebuy
  deriving DecidableEq, Repr

/-- An `OrderLevel` as built by `getOrderLevels`; `filled` is `none` where
the TSX code leaves the optional field unset (the stop-loss line). -/
structure OrderLevel where
  price : ℚ
  label : String
  type : LevelType
  filled : Option Bool
  deriving DecidableEq, Repr

/-- JS `String.prototype.toLowerCase` on the ASCII labels used by the app,
embedded as a character-by-character lowercase map. -/
def strToLower (s : String) : String :=
  ⟨s.data.map Char.toLower⟩

/-- JS `String.prototype.startsWith`, embedded as a character-list prefix
test. -/
def strStartsWith (s pre : String) : Bool :=
  pre.data.isPrefixOf s.data

/-- Embedded from `getOrderLevels` (`frontend/components/LightweightChart.tsx`
lines 82-84): an entry is classified as a rebuy when its label, lowercased,
starts with "rb" or starts with "rebuy". -/
def isRebuyLabel (label : String) : Bool :=
  strStartsWith (strToLower label) "rb" || strStartsWith (strToLower label) "rebuy"

/-- Embedded from `getOrderLevels` (`frontend/components/LightweightChart.tsx`
lines 76-113): with no trade there are no levels; otherwise one level per
entry (type `rebuy` or `entry` by `isRebuyLabel`), one per take-profit
(type `tp`), and — when `trade.stop_loss` is truthy, i.e. nonzero — one
stop-loss level labelled "SL". -/
def getOrderLevels (trade : Option Trade) : List OrderLevel :=
  match trade with
  | none => []
  | some t =>
      (t.entries.map fun e =>
        { price := e.price, label := e.label,
          type := if isRebuyLabel e.label then .rebuy else .entry,
          filled := some e.filled }) ++
      (t.take_profits.map fun tp =>
        { price := tp.price, label := tp.level, type := .tp,
          filled := some tp.filled }) ++
      (if t.stop_loss ≠ 0 then
        [{ price := t.stop_loss, label := "SL", type := .sl, filled := none }]
       else [])

theorem validate_eq_ok (p : TradePlan) :
    validate p = .ok () ↔
      (orderingOk p ∧ marginSumOk p ∧ takeProfitSumOk p ∧ positiveOk p) := by
  unfold validate
  by_cases h1 : orderingOk p <;> by_cases h2 : marginSumOk p <;>
    by_cases h3 : takeProfitSumOk p <;> by_cases h4 : positiveOk p <;>
    simp [h1, h2, h3, h4]

theorem orderingOk_iff (p : TradePlan) :
    orderingOk p = true ↔
      ((p.direction = .LONG → p.stopLoss < p.entryPrice ∧
          ∀ tp ∈ p.takeProfits, p.entryPrice < tp.price) ∧
       (p.direction = .SHORT → p.entryPrice < p.stopLoss ∧
          ∀ tp ∈ p.takeProfits, tp.price < p.entryPrice)) := by
  cases hd : p.direction <;> simp [orderingOk, hd, List.all_eq_true]

theorem positiveOk_iff (p : TradePlan) :
    positiveOk p = true ↔
      (0 < p.marginUSD ∧ 0 < p.leverage ∧ 0 < p.entryPrice ∧ 0 < p.stopLoss ∧
       (∀ e ∈ p.entries, 0 < e.price ∧ 0 < e.sizeUSD) ∧
       (∀ tp ∈ p.takeProfits, 0 < tp.price ∧ 0 < tp.sizePercent)) := by
  simp [positiveOk, List.all_eq_true, and_assoc]

@[simp] theorem sumFilledQty_nil : sumFilledQty [] = 0 := rfl

@[simp] theorem sumFilledQty_cons (e : EntrySt) (es : List EntrySt) :
    sumFilledQty (e :: es) =
      if e.filled then e.qty + sumFilledQty es else sumFilledQty es := rfl

@[simp] theorem sumClosedQty_nil : sumClosedQty [] = 0 := rfl

@[simp] theorem sumClosedQty_cons (t : TpSt) (ts : List TpSt) :
    sumClosedQty (t :: ts) =
      if t.filled then t.closedQty + sumClosedQty ts else sumClosedQty ts := rfl

theorem entriesStep_acc (es : List EntrySt) : ∀ (os : List Bool) (acc : ℚ),
    (entriesStep es os acc).acc - sumFilledQty (entriesStep es os acc).entries
      = acc - sumFilledQty es := by
  induction es with
  | nil => intro os acc; cases os <;> simp [entriesStep]
  | cons e es ih =>
    intro os acc
    cases os with
    | nil => simp [entriesStep]
    | cons o os =>
      cases hf : e.filled <;> cases o <;>
        simp [entriesStep, hf] <;>
        linarith [ih os acc, ih os (acc + e.qty)]

theorem tpsStep_acc (d : Direction) (off : ℚ) (ts : List TpSt) :
    ∀ (os : List Bool) (k : ℕ) (prev acc : ℚ) (sl : Option ℚ),
    (tpsStep d off k prev ts os acc sl).acc
        + sumClosedQty (tpsStep d off k prev ts os acc sl).tps
      = acc + sumClosedQty ts := by
  induction ts with
  | nil => intro os k prev acc sl; cases os <;> simp [tpsStep]
  | cons t ts ih =>
    intro os k prev acc sl
    cases os with
    | nil => simp [tpsStep]
    | cons o os =>
      cases hf : t.filled <;> cases o <;>
        simp [tpsStep, hf] <;>
        linarith [ih os (k + 1) t.price acc sl,
          ih os (k + 1) t.price (acc - t.pct / 100 * acc)
            (some (cascadeStopLoss d k prev off))]

theorem entriesStep_count (es : List EntrySt) : ∀ (os : List Bool) (acc : ℚ),
    (entriesStep es os acc).count = newFillCount (es.map EntrySt.filled) os := by
  induction es with
  | nil => intro os acc; cases os <;> simp [entriesStep, newFillCount]
  | cons e es ih =>
    intro os acc
    cases os with
    | nil => simp [entriesStep, newFillCount]
    | cons o os => simp [entriesStep, newFillCount, ih]

theorem tpsStep_count (d : Direction) (off : ℚ) (ts : List TpSt) :
    ∀ (os : List Bool) (k : ℕ) (prev acc : ℚ) (sl : Option ℚ),
    (tpsStep d off k prev ts os acc sl).count
      = newFillCount (ts.map TpSt.filled) os := by
  induction ts with
  | nil => intro os k prev acc sl; cases os <;> simp [tpsStep, newFillCount]
  | cons t ts ih =>
    intro os k prev acc sl
    cases os with
    | nil => simp [tpsStep, newFillCount]
    | cons o os => simp [tpsStep, newFillCount, ih]

theorem entriesStep_count_zero (es : List EntrySt) : ∀ (os : List Bool) (acc : ℚ),
    (entriesStep es os acc).count = 0 →
      (entriesStep es os acc).entries = es ∧ (entriesStep es os acc).acc = acc := by
  induction es with
  | nil => intro os acc _; cases os <;> simp [entriesStep]
  | cons e es ih =>
    intro os acc h
    obtain ⟨q, f⟩ := e
    cases os with
    | nil => simp [entriesStep]
    | cons o os =>
      cases f <;> cases o <;> simp [entriesStep] at h ⊢ <;> exact ih os acc h

theorem tpsStep_count_zero (d : Direction) (off : ℚ) (ts : List TpSt) :
    ∀ (os : List Bool) (k : ℕ) (prev acc : ℚ) (sl : Option ℚ),
    (tpsStep d off k prev ts os acc sl).count = 0 →
      (tpsStep d off k prev ts os acc sl).tps = ts ∧
        (tpsStep d off k prev ts os acc sl).acc = acc ∧
        (tpsStep d off k prev ts os acc sl).sl = sl := by
  induction ts with
  | nil => intro os k prev acc sl _; cases os <;> simp [tpsStep]
  | cons t ts ih =>
    intro os k prev acc sl h
    obtain ⟨pc, pr, f, cq⟩ := t
    cases os with
    | nil => simp [tpsStep]
    | cons o os =>
      cases f <;> cases o <;> simp [tpsStep] at h ⊢ <;>
        exact ih os (k + 1) pr acc sl h

theorem entriesStep_idem (es : List EntrySt) : ∀ (os : List Bool) (acc acc' : ℚ),
    entriesStep (entriesStep es os acc).entries os acc'
      = ⟨(entriesStep es os acc).entries, acc', 0⟩ := by
  induction es with
  | nil => intro os acc acc'; cases os <;> simp [entriesStep]
  | cons e es ih =>
    intro os acc acc'
    cases os with
    | nil => simp [entriesStep]
    | cons o os =>
      cases hf : e.filled <;> cases o <;> simp [entriesStep, hf, ih]

theorem tpsStep_idem (d : Direction) (off : ℚ) (ts : List TpSt) :
    ∀ (os : List Bool) (k : ℕ) (prev acc : ℚ) (sl : Option ℚ)
      (k' : ℕ) (prev' acc' : ℚ) (sl' : Option ℚ),
    tpsStep d off k' prev' (tpsStep d off k prev ts os acc sl).tps os acc' sl'
      = ⟨(tpsStep d off k prev ts os acc sl).tps, acc', sl', 0⟩ := by
  induction ts with
  | nil => intro os k prev acc sl k' prev' acc' sl'; cases os <;> simp [tpsStep]
  | cons t ts ih =>
    intro os k prev acc sl k' prev' acc' sl'
    cases os with
    | nil => simp [tpsStep]
    | cons o os =>
      cases hf : t.filled <;> cases o <;> simp [tpsStep, hf, ih]

theorem tpsStep_no_obs (d : Direction) (off : ℚ) (ts : List TpSt) :
    ∀ (n : ℕ) (k : ℕ) (prev acc : ℚ) (sl : Option ℚ),
    tpsStep d off k prev ts (List.replicate n false) acc sl = ⟨ts, acc, sl, 0⟩ := by
  induction ts with
  | nil => intro n k prev acc sl; cases n <;> simp [tpsStep]
  | cons t ts ih =>
    intro n k prev acc sl
    cases n with
    | zero => simp [tpsStep]
    | succ n => simp [tpsStep, List.replicate_succ, ih]

theorem tick_preserves_coverage (plan : EnginePlan) (s : EngineState)
    (poll : Poll)
    (h : s.slPrice ≠ none → s.slQty = s.accumulatedSize) :
    (tick plan s poll).1.slPrice ≠ none →
      (tick plan s poll).1.slQty = (tick plan s poll).1.accumulatedSize := by
  intro hsl
  simp only [tick] at hsl ⊢
  set er := entriesStep s.entries poll.entryFills s.accumulatedSize with her
  set sl1 := (if 0 < er.count then some (s.slPrice.getD plan.stopLoss)
    else s.slPrice) with hsl1
  set tr := tpsStep plan.direction plan.offsetPercent 1 plan.entryPrice
    s.tps poll.tpFills er.acc sl1 with htr
  by_cases hfill : 0 < er.count + tr.count
  · simp [hfill] at hsl ⊢
  · simp only [if_neg hfill] at hsl ⊢
    have h1 : er.count = 0 := by omega
    have h2 : tr.count = 0 := by omega
    obtain ⟨_, hea⟩ :=
      entriesStep_count_zero s.entries poll.entryFills s.accumulatedSize h1
    obtain ⟨_, hta, hts⟩ := tpsStep_count_zero plan.direction
      plan.offsetPercent s.tps poll.tpFills 1 plan.entryPrice er.acc sl1 h2
    rw [← htr] at hta hts
    rw [← her] at hea
    rw [hta, hea]
    apply h
    rw [hts] at hsl
    rw [hsl1] at hsl
    simpa [h1] using hsl

theorem tick_preserves_accounting (plan : EnginePlan) (s : EngineState)
    (poll : Poll)
    (h : s.accumulatedSize = sumFilledQty s.entries - sumClosedQty s.tps) :
    (tick plan s poll).1.accumulatedSize
      = sumFilledQty (tick plan s poll).1.entries
        - sumClosedQty (tick plan s poll).1.tps := by
  simp only [tick]
  set er := entriesStep s.entries poll.entryFills s.accumulatedSize with her
  set sl1 := (if 0 < er.count then some (s.slPrice.getD plan.stopLoss)
    else s.slPrice) with hsl1
  set tr := tpsStep plan.direction plan.offsetPercent 1 plan.entryPrice
    s.tps poll.tpFills er.acc sl1 with htr
  have hE := entriesStep_acc s.entries poll.entryFills s.accumulatedSize
  have hT := tpsStep_acc plan.direction plan.offsetPercent s.tps poll.tpFills
    1 plan.entryPrice er.acc sl1
  rw [← her] at hE
  rw [← htr] at hT
  show tr.acc = sumFilledQty er.entries - sumClosedQty tr.tps
  linarith

theorem tick_idem (plan : EnginePlan) (s : EngineState) (poll : Poll) :
    tick plan (tick plan s poll).1 poll = ((tick plan s poll).1, []) := by
  simp [tick, entriesStep_idem, tpsStep_idem]

theorem tick_rebuy_sl (plan : EnginePlan) (s : EngineState) (poll : Poll)
    (ht : newFillCount (s.tps.map TpSt.filled) poll.tpFills = 0)
    (he : 0 < newFillCount (s.entries.map EntrySt.filled) poll.entryFills) :
    (tick plan s poll).1.slPrice = some (s.slPrice.getD plan.stopLoss) ∧
      (tick plan s poll).1.slQty = (tick plan s poll).1.accumulatedSize := by
  simp only [tick]
  set er := entriesStep s.entries poll.entryFills s.accumulatedSize with her
  set sl1 := (if 0 < er.count then some (s.slPrice.getD plan.stopLoss)
    else s.slPrice) with hsl1
  set tr := tpsStep plan.direction plan.offsetPercent 1 plan.entryPrice
    s.tps poll.tpFills er.acc sl1 with htr
  have hec : 0 < er.count := by rw [her, entriesStep_count]; exact he
  have htc : tr.count = 0 := by rw [htr, tpsStep_count]; exact ht
  obtain ⟨_, _, hts⟩ := tpsStep_count_zero plan.direction plan.offsetPercent
    s.tps poll.tpFills 1 plan.entryPrice er.acc sl1 (htr ▸ htc)
  rw [← htr] at hts
  have hfill : 0 < er.count + tr.count := by omega
  refine ⟨?_, ?_⟩
  · show tr.sl = some (s.slPrice.getD plan.stopLoss)
    rw [hts, hsl1, if_pos hec]
  · show (if 0 < er.count + tr.count then tr.acc else s.slQty) = tr.acc
    rw [if_pos hfill]

theorem tick_tp1_cascade (plan : EnginePlan) (s : EngineState) (poll : Poll)
    (t : TpSt) (rest : List TpSt)
    (hts : s.tps = t :: rest) (hf : t.filled = false)
    (hp : poll.tpFills = true :: List.replicate rest.length false) :
    (tick plan s poll).1.slPrice
      = some (cascadeStopLoss plan.direction 1 plan.entryPrice
          plan.offsetPercent) := by
  simp only [tick, hts, hp]
  simp [tpsStep, hf, tpsStep_no_obs]

theorem outageRun_status (N : ℕ) (oks : List Bool) : ∀ (s : OutageState),
    (outageRun N s oks).1.status = s.status := by
  induction oks with
  | nil => intro s; simp [outageRun]
  | cons ok rest ih =>
    intro s
    cases ok <;> simp [outageRun, outageTick, ih]

theorem outageRun_fail_events (N : ℕ) (m : ℕ) : ∀ (s : OutageState),
    (outageRun N s (List.replicate m false)).2
      = if s.failCount < N ∧ N ≤ s.failCount + m then [.ERROR] else [] := by
  induction m with
  | zero =>
    intro s
    simp only [List.replicate, outageRun]
    rw [if_neg]
    omega
  | succ m ih =>
    intro s
    simp only [List.replicate_succ, outageRun, outageTick, if_neg Bool.false_ne_true,
      Bool.false_eq_true, if_false]
    rw [ih]
    dsimp only
    by_cases h1 : s.failCount + 1 = N <;>
      by_cases h2 : s.failCount < N ∧ N ≤ s.failCount + (m + 1)
    · rw [if_pos h1, if_pos h2, if_neg (by omega)]
      rfl
    · rw [if_pos h1] at *
      omega
    · rw [if_neg h1, if_pos h2, if_pos (by omega)]
      rfl
    · rw [if_neg h1, if_neg h2, if_neg (by omega)]
      rfl

theorem anchorPrice_getD (entry : ℚ) (tps : List ℚ) (k : ℕ) :
    anchorPrice entry tps k = (entry :: tps).getD (k - 1) entry := by
  match k with
  | 0 => rfl
  | 1 => rfl
  | n + 2 => simp [anchorPrice, List.getD_cons_succ]

theorem sumFilledQty_init (qs : List ℚ) :
    sumFilledQty (qs.map fun q => { qty := q, filled := false }) = 0 := by
  induction qs with
  | nil => rfl
  | cons q qs ih => simp [ih]

theorem sumClosedQty_init (tls : List (ℚ × ℚ)) :
    sumClosedQty (tls.map fun pp =>
      { pct := pp.1, price := pp.2, filled := false, closedQty := 0 }) = 0 := by
  induction tls with
  | nil => rfl
  | cons t tls ih => simp [ih]

/-- C2.  At every reachable state of a trade, whenever a stop-loss order is
resting (`slPrice` non-null) its quantity covers the entire current
`accumulatedSize`: no operation leaves a partial-coverage stop in place. -/
theorem sl_covers_accumulated_size (plan : EnginePlan) (s : EngineState)
    (hr : Reachable plan s) (h : s.slPrice ≠ none) :
    s.slQty = s.accumulatedSize := by
  revert h
  induction hr with
  | init qs tls => intro h; simp [initState] at h
  | step poll hr ih => intro h; exact tick_preserves_coverage _ _ _ ih h

/-- C2 witness: after the initial entry fill of a concrete one-entry,
one-take-profit trade, the resting stop covers the whole position. -/
theorem sl_covers_accumulated_size_witness :
    (tick ⟨.SHORT, 111/5000, 24699/1000000, 1/10⟩
        (initState [45] [(20, 219/10000)]) ⟨[true], [false]⟩).1.slQty
      = (tick ⟨.SHORT, 111/5000, 24699/1000000, 1/10⟩
        (initState [45] [(20, 219/10000)]) ⟨[true], [false]⟩).1.accumulatedSize :=
  sl_covers_accumulated_size _ _
    (Reachable.step ⟨[true], [false]⟩ (Reachable.init [45] [(20, 219/10000)]))
    (by decide)

/-- C6.  At every reachable state, `accumulatedSize` equals the sum of the
filled entry/rebuy quantities minus the quantities closed by the filled
take-profits; and the polling cycle is idempotent — a second tick on the
identical poll result changes no state and emits no events. -/
theorem reconciliation_exact_and_idempotent :
    (∀ (plan : EnginePlan) (s : EngineState), Reachable plan s →
      s.accumulatedSize = sumFilledQty s.entries - sumClosedQty s.tps) ∧
    (∀ (plan : EnginePlan) (s : EngineState) (poll : Poll),
      tick plan (tick plan s poll).1 poll = ((tick plan s poll).1, [])) := by
  constructor
  · intro plan s hr
    induction hr with
    | init qs tls => simp [initState, sumFilledQty_init, sumClosedQty_init]
    | step poll hr ih => exact tick_preserves_accounting _ _ _ ih
  · intro plan s poll
    exact tick_idem plan s poll

/-- C6 witness: the accounting identity at a concrete reachable state, and
idempotence of a concrete tick. -/
theorem reconciliation_exact_and_idempotent_witness :
    ((tick ⟨.SHORT, 111/5000, 24699/1000000, 1/10⟩
        (initState [45] [(20, 219/10000)]) ⟨[true], [true]⟩).1.accumulatedSize
      = sumFilledQty (tick ⟨.SHORT, 111/5000, 24699/1000000, 1/10⟩
          (initState [45] [(20, 219/10000)]) ⟨[true], [true]⟩).1.entries
        - sumClosedQty (tick ⟨.SHORT, 111/5000, 24699/1000000, 1/10⟩
          (initState [45] [(20, 219/10000)]) ⟨[true], [true]⟩).1.tps) ∧
    tick ⟨.SHORT, 111/5000, 24699/1000000, 1/10⟩
        (tick ⟨.SHORT, 111/5000, 24699/1000000, 1/10⟩
          (initState [45] [(20, 219/10000)]) ⟨[true], [true]⟩).1 ⟨[true], [true]⟩
      = ((tick ⟨.SHORT, 111/5000, 24699/1000000, 1/10⟩
          (initState [45] [(20, 219/10000)]) ⟨[true], [true]⟩).1, []) :=
  ⟨reconciliation_exact_and_idempotent.1 _ _
      (Reachable.step ⟨[true], [true]⟩ (Reachable.init [45] [(20, 219/10000)])),
    reconciliation_exact_and_idempotent.2 _ _ _⟩

/-- C1 counterexample: at the README's SHORT example (entry 0.0222, offset
0.1%), the level-1 cascade places the new stop-loss strictly *above* the
prior level's price (the entry price), not below it as the claim states for
SHORT trades (`src/README.md` line 32: "move SL to ~0.0222 (above
entry)"). -/
theorem cascade_short_not_below_cex :
    anchorPrice (111/5000) [219/10000, 109/5000] 1
      < cascadeStopLoss .SHORT 1
          (anchorPrice (111/5000) [219/10000, 109/5000] 1) (1/10) := by
  norm_num [anchorPrice, cascadeStopLoss]

/-- C1 (amended).  When take-profit level k fires, the new stop-loss equals
the prior level's price (the entry price if k = 1, otherwise TP level k−1's
price) shifted by offsetPercent *above* it — for SHORT trades as well as
LONG ones — and a level-1 cascade anchors to the entry price regardless of
which rebuys have filled. -/
theorem cascade_anchor_and_shift :
    (∀ (dir : Direction) (entry off : ℚ) (tps : List ℚ) (k : ℕ),
        0 < anchorPrice entry tps k → 0 < off →
          cascadeStopLoss dir k (anchorPrice entry tps k) off
              = anchorPrice entry tps k * (1 + off / 100) ∧
            anchorPrice entry tps k
              < cascadeStopLoss dir k (anchorPrice entry tps k) off) ∧
    (∀ (entry : ℚ) (tps : List ℚ), anchorPrice entry tps 1 = entry) ∧
    (∀ (plan : EnginePlan) (s : EngineState) (poll : Poll) (t : TpSt)
        (rest : List TpSt),
        s.tps = t :: rest → t.filled = false →
        poll.tpFills = true :: List.replicate rest.length false →
        (tick plan s poll).1.slPrice
          = some (cascadeStopLoss plan.direction 1 plan.entryPrice
              plan.offsetPercent)) := by
  refine ⟨?_, ?_, ?_⟩
  · intro dir entry off tps k hpos hoff
    have h : anchorPrice entry tps k
        < anchorPrice entry tps k * (1 + off / 100) := by
      nlinarith [mul_pos hpos hoff]
    cases dir <;> exact ⟨rfl, h⟩
  · intro entry tps
    rfl
  · intro plan s poll t rest hts hf hp
    exact tick_tp1_cascade plan s poll t rest hts hf hp

/-- C1 witness: the amended statement evaluated on the README's SHORT
example — entry 0.0222, offset 0.1%, TP1 at 0.0219 firing while the rebuy
order is still unfilled. -/
theorem cascade_anchor_and_shift_witness :
    (cascadeStopLoss .SHORT 1 (anchorPrice (111/5000) [219/10000] 1) (1/10)
        = anchorPrice (111/5000) [219/10000] 1 * (1 + (1/10) / 100) ∧
      anchorPrice (111/5000) [219/10000] 1
        < cascadeStopLoss .SHORT 1
            (anchorPrice (111/5000) [219/10000] 1) (1/10)) ∧
    anchorPrice (111/5000) [219/10000] 1 = 111/5000 ∧
    (tick ⟨.SHORT, 111/5000, 24699/1000000, 1/10⟩
        { entries := [⟨45, false⟩], tps := [⟨20, 219/10000, false, 0⟩],
          accumulatedSize := 0, slPrice := some (24699/1000000), slQty := 0 }
        ⟨[false], [true]⟩).1.slPrice
      = some (cascadeStopLoss .SHORT 1 (111/5000) (1/10)) :=
  ⟨cascade_anchor_and_shift.1 .SHORT (111/5000) (1/10) [219/10000] 1
      (by norm_num [anchorPrice]) (by norm_num),
    cascade_anchor_and_shift.2.1 (111/5000) [219/10000],
    cascade_anchor_and_shift.2.2 _ _ _ _ [] rfl rfl rfl⟩

/-- C3.  A polling tick that processes entry/rebuy fills and no take-profit
fill re-issues the stop order sized to the new accumulated size but leaves
the stop-loss price unchanged: afterwards it is exactly the price in force
before the fill (initially the plan's declared stopLoss). -/
theorem rebuy_fill_keeps_sl_price (plan : EnginePlan) (s : EngineState)
    (poll : Poll)
    (ht : newFillCount (s.tps.map TpSt.filled) poll.tpFills = 0)
    (he : 0 < newFillCount (s.entries.map EntrySt.filled) poll.entryFills) :
    (tick plan s poll).1.slPrice = some (s.slPrice.getD plan.stopLoss) ∧
    (∀ p, s.slPrice = some p → (tick plan s poll).1.slPrice = some p) ∧
    (tick plan s poll).1.slQty = (tick plan s poll).1.accumulatedSize := by
  obtain ⟨h1, h2⟩ := tick_rebuy_sl plan s poll ht he
  exact ⟨h1, fun p hp => by rw [h1, hp]; rfl, h2⟩

/-- C3 witness: a rebuy fill on a concrete trade whose stop-loss is already
resting at 0.024699 leaves the price at 0.024699 and re-sizes the stop to
the new position size. -/
theorem rebuy_fill_keeps_sl_price_witness :
    (tick ⟨.SHORT, 111/5000, 24699/1000000, 1/10⟩
        { entries := [⟨45, true⟩, ⟨58, false⟩], tps := [⟨20, 219/10000, false, 0⟩],
          accumulatedSize := 45, slPrice := some (24699/1000000), slQty := 45 }
        ⟨[true, true], [false]⟩).1.slPrice = some (24699/1000000) ∧
    (tick ⟨.SHORT, 111/5000, 24699/1000000, 1/10⟩
        { entries := [⟨45, true⟩, ⟨58, false⟩], tps := [⟨20, 219/10000, false, 0⟩],
          accumulatedSize := 45, slPrice := some (24699/1000000), slQty := 45 }
        ⟨[true, true], [false]⟩).1.slQty
      = (tick ⟨.SHORT, 111/5000, 24699/1000000, 1/10⟩
        { entries := [⟨45, true⟩, ⟨58, false⟩], tps := [⟨20, 219/10000, false, 0⟩],
          accumulatedSize := 45, slPrice := some (24699/1000000), slQty := 45 }
        ⟨[true, true], [false]⟩).1.accumulatedSize := by
  have h := rebuy_fill_keeps_sl_price ⟨.SHORT, 111/5000, 24699/1000000, 1/10⟩
    { entries := [⟨45, true⟩, ⟨58, false⟩], tps := [⟨20, 219/10000, false, 0⟩],
      accumulatedSize := 45, slPrice := some (24699/1000000), slQty := 45 }
    ⟨[true, true], [false]⟩ (by decide) (by decide)
  exact ⟨h.1, h.2.2⟩

/-- C4.  For take-profit level k > 1 firing on a direction-consistently
ordered plan, the cascade's new stop-loss is strictly more protective than
the one set when level k−1 fired: strictly lower for SHORT trades, strictly
higher for LONG trades. -/
theorem cascade_monotonic (entry off : ℚ) (tps : List ℚ) (k : ℕ)
    (hk : 2 ≤ k) (hlen : k ≤ tps.length) (hoff : 0 < off) :
    (List.Pairwise (· > ·) (entry :: tps) →
      cascadeStopLoss .SHORT k (anchorPrice entry tps k) off
        < cascadeStopLoss .SHORT (k - 1) (anchorPrice entry tps (k - 1)) off) ∧
    (List.Pairwise (· < ·) (entry :: tps) →
      cascadeStopLoss .LONG (k - 1) (anchorPrice entry tps (k - 1)) off
        < cascadeStopLoss .LONG k (anchorPrice entry tps k) off) := by
  have hfac : (0:ℚ) < 1 + off / 100 := by linarith
  have hi1 : k - 1 < (entry :: tps).length := by simp; omega
  have hi2 : k - 2 < (entry :: tps).length := by simp; omega
  have hlt : k - 2 < k - 1 := by omega
  have ha_k : anchorPrice entry tps k = (entry :: tps)[k - 1] := by
    rw [anchorPrice_getD, List.getD_eq_getElem _ _ hi1]
  have ha_k1 : anchorPrice entry tps (k - 1) = (entry :: tps)[k - 2] := by
    rw [anchorPrice_getD, show k - 1 - 1 = k - 2 by omega,
      List.getD_eq_getElem _ _ hi2]
  constructor
  · intro hp
    have h := List.pairwise_iff_getElem.mp hp (k - 2) (k - 1) hi2 hi1 hlt
    show anchorPrice entry tps k * (1 + off / 100)
        < anchorPrice entry tps (k - 1) * (1 + off / 100)
    rw [ha_k, ha_k1]
    exact mul_lt_mul_of_pos_right h hfac
  · intro hp
    have h := List.pairwise_iff_getElem.mp hp (k - 2) (k - 1) hi2 hi1 hlt
    show anchorPrice entry tps (k - 1) * (1 + off / 100)
        < anchorPrice entry tps k * (1 + off / 100)
    rw [ha_k, ha_k1]
    exact mul_lt_mul_of_pos_right h hfac

/-- C4 witness: the README's SHORT example at k = 2 (TP2's cascade is
strictly below TP1's), and a LONG counterpart (strictly above). -/
theorem cascade_monotonic_witness :
    (cascadeStopLoss .SHORT 2
        (anchorPrice (111/5000) [219/10000, 109/5000] 2) (1/10)
      < cascadeStopLoss .SHORT 1
        (anchorPrice (111/5000) [219/10000, 109/5000] 1) (1/10)) ∧
    (cascadeStopLoss .LONG 1
        (anchorPrice (111/5000) [23/1000, 24/1000] 1) (1/10)
      < cascadeStopLoss .LONG 2
        (anchorPrice (111/5000) [23/1000, 24/1000] 2) (1/10)) :=
  ⟨(cascade_monotonic (111/5000) (1/10) [219/10000, 109/5000] 2
      (by norm_num) (by norm_num) (by norm_num)).1
      (by norm_num [List.pairwise_cons]),
   (cascade_monotonic (111/5000) (1/10) [23/1000, 24/1000] 2
      (by norm_num) (by norm_num) (by norm_num)).2
      (by norm_num [List.pairwise_cons])⟩

/-- C5.  `validate` returns Ok exactly when the direction-consistent price
ordering holds, the entry sizes sum to marginUSD within relative epsilon
1e-6, the take-profit percentages sum to at most 100, and every price and
size is positive; otherwise the first violated invariant is returned as a
`ValidationError`. -/
theorem validate_ok_iff (p : TradePlan) :
    (validate p = .ok () ↔
      ((p.direction = .LONG → p.stopLoss < p.entryPrice ∧
          ∀ tp ∈ p.takeProfits, p.entryPrice < tp.price) ∧
       (p.direction = .SHORT → p.entryPrice < p.stopLoss ∧
          ∀ tp ∈ p.takeProfits, tp.price < p.entryPrice) ∧
       |entriesSum p - p.marginUSD| ≤ p.marginUSD * (1 / 1000000) ∧
       (p.takeProfits.map TPLevel.sizePercent).sum ≤ 100 ∧
       (0 < p.marginUSD ∧ 0 < p.leverage ∧ 0 < p.entryPrice ∧ 0 < p.stopLoss ∧
        (∀ e ∈ p.entries, 0 < e.price ∧ 0 < e.sizeUSD) ∧
        (∀ tp ∈ p.takeProfits, 0 < tp.price ∧ 0 < tp.sizePercent)))) ∧
    (¬ ((p.direction = .LONG → p.stopLoss < p.entryPrice ∧
          ∀ tp ∈ p.takeProfits, p.entryPrice < tp.price) ∧
        (p.direction = .SHORT → p.entryPrice < p.stopLoss ∧
          ∀ tp ∈ p.takeProfits, tp.price < p.entryPrice)) →
      validate p = .error .badOrdering) ∧
    (((p.direction = .LONG → p.stopLoss < p.entryPrice ∧
          ∀ tp ∈ p.takeProfits, p.entryPrice < tp.price) ∧
        (p.direction = .SHORT → p.entryPrice < p.stopLoss ∧
          ∀ tp ∈ p.takeProfits, tp.price < p.entryPrice)) →
      ¬ |entriesSum p - p.marginUSD| ≤ p.marginUSD * (1 / 1000000) →
      validate p = .error .badMarginSum) ∧
    (((p.direction = .LONG → p.stopLoss < p.entryPrice ∧
          ∀ tp ∈ p.takeProfits, p.entryPrice < tp.price) ∧
        (p.direction = .SHORT → p.entryPrice < p.stopLoss ∧
          ∀ tp ∈ p.takeProfits, tp.price < p.entryPrice)) →
      |entriesSum p - p.marginUSD| ≤ p.marginUSD * (1 / 1000000) →
      ¬ (p.takeProfits.map TPLevel.sizePercent).sum ≤ 100 →
      validate p = .error .badTakeProfitSum) ∧
    (((p.direction = .LONG → p.stopLoss < p.entryPrice ∧
          ∀ tp ∈ p.takeProfits, p.entryPrice < tp.price) ∧
        (p.direction = .SHORT → p.entryPrice < p.stopLoss ∧
          ∀ tp ∈ p.takeProfits, tp.price < p.entryPrice)) →
      |entriesSum p - p.marginUSD| ≤ p.marginUSD * (1 / 1000000) →
      (p.takeProfits.map TPLevel.sizePercent).sum ≤ 100 →
      ¬ (0 < p.marginUSD ∧ 0 < p.leverage ∧ 0 < p.entryPrice ∧ 0 < p.stopLoss ∧
         (∀ e ∈ p.entries, 0 < e.price ∧ 0 < e.sizeUSD) ∧
         (∀ tp ∈ p.takeProfits, 0 < tp.price ∧ 0 < tp.sizePercent)) →
      validate p = .error .nonPositive) := by
  refine ⟨?_, ?_, ?_, ?_, ?_⟩
  · rw [validate_eq_ok, orderingOk_iff, positiveOk_iff]
    simp only [marginSumOk, takeProfitSumOk, decide_eq_true_eq, and_assoc]
  · intro h
    have hob : ¬ orderingOk p = true := fun hb => h ((orderingOk_iff p).mp hb)
    simp [validate, hob]
  · intro hab hc
    have hob : orderingOk p = true := (orderingOk_iff p).mpr hab
    have hmb : ¬ marginSumOk p = true := by simpa [marginSumOk] using hc
    simp [validate, hob, hmb]
  · intro hab hc hd
    have hob : orderingOk p = true := (orderingOk_iff p).mpr hab
    have hmb : marginSumOk p = true := by simpa [marginSumOk] using hc
    have htb : ¬ takeProfitSumOk p = true := by
      simpa [takeProfitSumOk] using hd
    simp [validate, hob, hmb, htb]
  · intro hab hc hd he
    have hob : orderingOk p = true := (orderingOk_iff p).mpr hab
    have hmb : marginSumOk p = true := by simpa [marginSumOk] using hc
    have htb : takeProfitSumOk p = true := by
      simpa [takeProfitSumOk] using hd
    have hpb : ¬ positiveOk p = true := fun hb => he ((positiveOk_iff p).mp hb)
    simp [validate, hob, hmb, htb, hpb]

/-- C5 witness: a SHORT plan whose stop-loss sits below its entry is
rejected with the ordering error, and a plan whose entry sizes sum to 100
against a declared marginUSD of 200 is rejected with the margin-sum error
(its ordering being fine). -/
theorem validate_ok_iff_witness :
    validate ⟨.SHORT, 200, 5, 111/5000, 1/1000,
        [⟨"Entry", 111/5000, 200⟩], [⟨"TP1", 219/10000, 20⟩]⟩
      = .error .badOrdering ∧
    validate ⟨.SHORT, 200, 5, 111/5000, 24699/1000000,
        [⟨"Entry", 111/5000, 100⟩], [⟨"TP1", 219/10000, 20⟩]⟩
      = .error .badMarginSum :=
  ⟨(validate_ok_iff _).2.1
      (fun h => by have := (h.2 rfl).1; norm_num at this),
    (validate_ok_iff _).2.2.1
      ⟨fun h => absurd h (by decide),
        fun _ => ⟨by norm_num, by
          intro tp htp
          simp only [List.mem_singleton] at htp
          subst htp
          norm_num⟩⟩
      (by norm_num [entriesSum])⟩

/-- C7 counterexample: the code's `TradeStatus` enumeration has no ERROR
member — "ERROR" is not among its declared values (it exists only as a
`TradeEventType`), so no absorbing ERROR state reachable from ACTIVE/OPEN
exists in the code. -/
theorem no_error_status_cex : "ERROR" ∉ tradeStatusValues := by decide

/-- C7 (amended).  Trade status follows the chain PENDING → ACTIVE → OPEN →
CLOSED with no transition skipping a state, CLOSED admits no outgoing
transition, and the code's status enumeration has no ERROR member. -/
theorem status_chain_no_skip :
    (∀ a b, statusStep a b → statusRank b = statusRank a + 1) ∧
    (∀ b, ¬ statusStep .CLOSED b) ∧
    "ERROR" ∉ tradeStatusValues := by
  refine ⟨?_, ?_, by decide⟩
  · intro a b h
    cases h <;> rfl
  · intro b h
    nomatch h

/-- C7 witness: the start transition advances the chain by exactly one
state. -/
theorem status_chain_no_skip_witness :
    statusRank .ACTIVE = statusRank .PENDING + 1 :=
  status_chain_no_skip.1 _ _ statusStep.start

/-- C8.  If Gateway polls fail for K ≥ N consecutive ticks starting from a
clean consecutive-failure counter, exactly one ERROR event is emitted for
the whole outage — not one per failed tick — and the trade's status is left
unchanged by any outcome sequence. -/
theorem outage_single_error (N K : ℕ) (s : OutageState)
    (hN : 1 ≤ N) (hK : N ≤ K) (h0 : s.failCount = 0) :
    (outageRun N s (List.replicate K false)).2 = [.ERROR] ∧
    (∀ oks : List Bool, (outageRun N s oks).1.status = s.status) := by
  constructor
  · rw [outageRun_fail_events,
      if_pos (show s.failCount < N ∧ N ≤ s.failCount + K by omega)]
  · intro oks
    exact outageRun_status N oks s

/-- C8 witness: threshold 2, three consecutive failed ticks — one ERROR
event in total and the OPEN status untouched. -/
theorem outage_single_error_witness :
    (outageRun 2 ⟨.OPEN, 0⟩ (List.replicate 3 false)).2 = [.ERROR] ∧
    (outageRun 2 ⟨.OPEN, 0⟩ [false, true, false]).1.status = .OPEN :=
  ⟨(outage_single_error 2 3 ⟨.OPEN, 0⟩ (by decide) (by decide) rfl).1,
   (outage_single_error 2 3 ⟨.OPEN, 0⟩ (by decide) (by decide) rfl).2
     [false, true, false]⟩

/-- C9.  The chart classifies the i-th element of the trade's entries list
as a rebuy exactly when its label, lowercased, starts with "rb" or with
"rebuy", and as a main entry otherwise — the classification is a function
of the label alone, and each entry lands in exactly one of the two
groups. -/
theorem entry_level_classification (t : Trade) (i : ℕ)
    (h : i < t.entries.length) :
    ((getOrderLevels (some t)).getD i ⟨0, "", .sl, none⟩).type
        = (if isRebuyLabel ((t.entries.getD i ⟨"", 0, false⟩).label)
           then LevelType.rebuy else LevelType.entry) ∧
    (((getOrderLevels (some t)).getD i ⟨0, "", .sl, none⟩).type
        = LevelType.rebuy
      ↔ (strStartsWith (strToLower ((t.entries.getD i ⟨"", 0, false⟩).label))
            "rb"
          || strStartsWith (strToLower ((t.entries.getD i ⟨"", 0, false⟩).label))
            "rebuy") = true) := by
  unfold getOrderLevels
  rw [List.getD_append _ _ _ _ (by simp; omega),
    List.getD_append _ _ _ _ (by simpa using h),
    List.getD_eq_getElem _ _ (by simpa using h),
    List.getElem_map, List.getD_eq_getElem _ _ h]
  refine ⟨rfl, ?_⟩
  show (if isRebuyLabel _ then LevelType.rebuy else LevelType.entry) = _ ↔ _
  rw [show ∀ l, (strStartsWith (strToLower l) "rb"
      || strStartsWith (strToLower l) "rebuy") = isRebuyLabel l
    from fun l => rfl]
  by_cases hb : isRebuyLabel (t.entries[i].label) <;> simp [hb]

/-- C9 witness: on a concrete trade ["Entry", "RB1"] the second entry is
classified as a rebuy. -/
theorem entry_level_classification_witness :
    ((getOrderLevels (some ⟨[⟨"Entry", 111/5000, true⟩, ⟨"RB1", 23/1000, false⟩],
        [⟨"TP1", 219/10000, false⟩], 24699/1000000⟩)).getD 1
      ⟨0, "", .sl, none⟩).type = LevelType.rebuy := by
  have h := entry_level_classification
    ⟨[⟨"Entry", 111/5000, true⟩, ⟨"RB1", 23/1000, false⟩],
      [⟨"TP1", 219/10000, false⟩], 24699/1000000⟩ 1 (by decide)
  rw [h.1]
  decide

end JsonApiTrader
